import Mathlib

/-!
Verification of the InkTime core algorithms: the four-color error-diffusion
quantizer (`applyFourColorDither`) and the date selector
(`pickPhotoFromDate` / `pickPhotoWithLookback` / `onRerollSameDay`),
shallowly embedded from `src/server.py` (the simulator page script).

Modelling conventions:
* Pixel channel values in the canvas `data` array are 8-bit integers,
  modelled as `Nat`.  The error buffers (`Float32Array` in the source) are
  modelled as exact rationals `ℚ`; all diffusion weights are dyadic
  (7/16, 3/16, 5/16, 1/16), so on the small concrete inputs evaluated
  below every intermediate value is exactly representable in Float32 and
  the rational model coincides with the source arithmetic.
* Calendar date strings "YYYY-MM-DD" are represented by their day numbers
  as `Int`; `getPreviousDateStr` (calendar decrement by one day) becomes
  decrement of the day number.
* `Math.floor(Math.random() * n)` returns some index `< n`; the random
  source is modelled by an arbitrary `k : Nat`, the index taken as
  `k % n`.  Claims are proved for every `k`, hence for every random draw.
-/

/-- One RGBA pixel of the canvas `data` array (8-bit channels). -/
structure Pix where
  r : Nat
  g : Nat
  b : Nat
  a : Nat
deriving DecidableEq, Repr

/-- An entry of the fixed four-color palette. -/
structure PalColor where
  r : Nat
  g : Nat
  b : Nat
deriving DecidableEq, Repr

/-- The fixed palette of `applyFourColorDither`:
black, white, red (200,0,0), yellow (220,180,0), in declaration order. -/
def palette : List PalColor :=
  [⟨0, 0, 0⟩, ⟨255, 255, 255⟩, ⟨200, 0, 0⟩, ⟨220, 180, 0⟩]

/-- The RGB part of a pixel, for palette-membership statements. -/
def rgbOf (p : Pix) : PalColor := ⟨p.r, p.g, p.b⟩

/-- Squared Euclidean distance in channel space, as computed in
`nearestColor`. -/
def distSq (r g b : ℚ) (c : PalColor) : ℚ :=
  (r - c.r) * (r - c.r) + (g - c.g) * (g - c.g) + (b - c.b) * (b - c.b)

/-- The loop of `nearestColor`: scan the remaining palette entries keeping
the current best entry and its distance; a later entry wins only on a
strictly smaller distance (`dist < bestDist`). -/
def nearestAux (r g b : ℚ) : List PalColor → PalColor → ℚ → PalColor
  | [], best, _ => best
  | c :: rest, best, bestDist =>
    if distSq r g b c < bestDist then nearestAux r g b rest c (distSq r g b c)
    else nearestAux r g b rest best bestDist

/-- The function `nearestColor(r, g, b)`: the palette entry minimizing squared distance,
earliest entry winning ties (`bestDist` starts at infinity, so the first
entry is always taken first). -/
def nearestColor (r g b : ℚ) : PalColor :=
  match palette with
  | [] => ⟨0, 0, 0⟩
  | c :: rest => nearestAux r g b rest c (distSq r g b c)

/-- Per-channel diffusion error at one column (`errR/errG/errB` entries). -/
structure Err3 where
  er : ℚ
  eg : ℚ
  eb : ℚ
deriving DecidableEq, Repr

/-- The zero error value. -/
def zero3 : Err3 := ⟨0, 0, 0⟩

/-- A row-indexed error buffer (`Float32Array(w)` in the source). -/
def zeroErrBuf : Nat → Err3 := fun _ => zero3

/-- The in-place accumulation `buf[i] += v` into an error buffer. -/
def addErr (e : Nat → Err3) (i : Nat) (v : Err3) : Nat → Err3 :=
  fun j => if j = i then ⟨(e j).er + v.er, (e j).eg + v.eg, (e j).eb + v.eb⟩ else e j

/-- The channel clamp `v < 0 ? 0 : (v > 255 ? 255 : v)`. -/
def clamp255 (v : ℚ) : ℚ :=
  if v < 0 then 0 else if v > 255 then 255 else v

/-- The body of the per-pixel loop of `applyFourColorDither` at column `x`:
add the carried error, clamp, quantize to the nearest palette color, write
it back (alpha untouched), and diffuse the residual with weights 7/16 to
the right, 3/16 below-left, 5/16 below and 1/16 below-right, dropping
out-of-bounds targets; the `below` writes are skipped on the last row
(`y + 1 < h` fails). -/
def stepPixel (w : Nat) (lastRow : Bool) (x : Nat) (p : Pix)
    (err nextErr : Nat → Err3) : Pix × (Nat → Err3) × (Nat → Err3) :=
  let r := clamp255 ((p.r : ℚ) + (err x).er)
  let g := clamp255 ((p.g : ℚ) + (err x).eg)
  let b := clamp255 ((p.b : ℚ) + (err x).eb)
  let nc := nearestColor r g b
  let er := r - (nc.r : ℚ)
  let eg := g - (nc.g : ℚ)
  let eb := b - (nc.b : ℚ)
  let err1 := if x + 1 < w then
      addErr err (x + 1) ⟨er * (7/16), eg * (7/16), eb * (7/16)⟩
    else err
  let next1 :=
    if lastRow then nextErr
    else
      let n1 := if 0 < x then
          addErr nextErr (x - 1) ⟨er * (3/16), eg * (3/16), eb * (3/16)⟩
        else nextErr
      let n2 := addErr n1 x ⟨er * (5/16), eg * (5/16), eb * (5/16)⟩
      if x + 1 < w then
        addErr n2 (x + 1) ⟨er * (1/16), eg * (1/16), eb * (1/16)⟩
      else n2
  (⟨nc.r, nc.g, nc.b, p.a⟩, err1, next1)

/-- The inner `x` loop: process the pixels of one row left to right,
threading the two error buffers. -/
def ditherRow (w : Nat) (lastRow : Bool) :
    Nat → List Pix → (Nat → Err3) → (Nat → Err3) →
    List Pix × (Nat → Err3) × (Nat → Err3)
  | _, [], err, nextErr => ([], err, nextErr)
  | x, p :: rest, err, nextErr =>
    let s := stepPixel w lastRow x p err nextErr
    let t := ditherRow w lastRow (x + 1) rest s.2.1 s.2.2
    (s.1 :: t.1, t.2.1, t.2.2)

/-- The outer `y` loop: after each non-final row the `next` buffer becomes
`current` and `next` is reset to zero (the source copies and zeroes; here
the fresh zero buffer is passed to the next row). -/
def ditherRows (w : Nat) : List (List Pix) → (Nat → Err3) → List (List Pix)
  | [], _ => []
  | row :: rest, err =>
    let t := ditherRow w rest.isEmpty 0 row err zeroErrBuf
    t.1 :: ditherRows w rest t.2.2

/-- The whole of `applyFourColorDither` on a `w`-wide bitmap given as a list of rows:
both error buffers start at zero. -/
def applyFourColorDither (w : Nat) (rows : List (List Pix)) : List (List Pix) :=
  ditherRows w rows zeroErrBuf

/-! ### The date selector -/

/-- A catalog photo record, restricted to the fields the selector reads:
the path identifier and the optional memory score. -/
structure Photo where
  path : String
  memory : Option ℚ
deriving DecidableEq, Repr

/-- The default record value used for in-range list indexing. -/
def dPhoto : Photo := ⟨"", none⟩

/-- Result of a successful pick: the chosen photo, the date actually used,
and the threshold-fallback flag (absent, i.e. `false`, on a filtered
pick). -/
structure PickResult where
  photo : Photo
  dateUsed : Int
  fallbackNoThreshold : Bool
deriving DecidableEq, Repr

/-- The candidate filter `p.memory != null && p.memory > THRESHOLD`. -/
def memGt (p : Photo) (threshold : ℚ) : Bool :=
  match p.memory with
  | some m => decide (threshold < m)
  | none => false

/-- The function `pickPhotoFromDate(date)`: look up the records for `date`; if none,
return null; otherwise filter by the memory threshold and choose a random
element of the filtered set when non-empty, else a random element of the
full set flagged `fallbackNoThreshold`.  The random draw
`Math.floor(Math.random() * n)` is modelled by `k % n`. -/
def pickPhotoFromDate (byDate : Int → List Photo) (threshold : ℚ) (k : Nat)
    (date : Int) : Option PickResult :=
  let arr := byDate date
  if arr.length = 0 then none
  else
    let candidates := arr.filter (fun p => memGt p threshold)
    if 0 < candidates.length then
      some ⟨candidates.getD (k % candidates.length) dPhoto, date, false⟩
    else
      some ⟨arr.getD (k % arr.length) dPhoto, date, true⟩

/-- The function `getPreviousDateStr`: calendar decrement by one day, on the day-number
representation of dates; it returns null only for malformed date strings,
which the `Int` representation excludes. -/
def getPreviousDate (d : Int) : Option Int := some (d - 1)

/-- The loop of `pickPhotoWithLookback`, with the iteration budget as an
explicit fuel argument: try the current date; on null, step one day back
and repeat while budget remains. -/
def lookbackFrom (byDate : Int → List Photo) (threshold : ℚ) (k : Nat) :
    Nat → Int → Option PickResult
  | 0, _ => none
  | n + 1, date =>
    match pickPhotoFromDate byDate threshold k date with
    | some picked => some picked
    | none =>
      match getPreviousDate date with
      | none => none
      | some prev => lookbackFrom byDate threshold k n prev

/-- The function `pickPhotoWithLookback(baseDate)` with `MAX_LOOKBACK = 30`. -/
def pickPhotoWithLookback (byDate : Int → List Photo) (threshold : ℚ)
    (k : Nat) (baseDate : Int) : Option PickResult :=
  lookbackFrom byDate threshold k 30 baseDate

/-- The retry loop of `onRerollSameDay` (`while (tries < 6 && ...)`):
`fuel` is `6 - tries`; `attempt` numbers the pick invocations so that
invocation `i` consumes the random draw `ks i`.  While the chosen photo
still equals the current one, re-pick; a null re-pick breaks out keeping
the previous choice. -/
def rerollAux (byDate : Int → List Photo) (threshold : ℚ) (ks : Nat → Nat)
    (currentDate : Int) (currentPath : String) :
    Nat → Nat → PickResult → PickResult
  | 0, _, chosen => chosen
  | fuel + 1, attempt, chosen =>
    if chosen.photo.path = currentPath then
      match pickPhotoWithLookback byDate threshold (ks attempt) currentDate with
      | none => chosen
      | some again =>
        rerollAux byDate threshold ks currentDate currentPath fuel (attempt + 1) again
    else chosen

/-- The handler `onRerollSameDay`: pick again from `currentDate`; on null report
no-photo (here `none`); otherwise run the collision retry loop and display
the final chosen photo. -/
def onRerollSameDay (byDate : Int → List Photo) (threshold : ℚ)
    (ks : Nat → Nat) (currentDate : Int) (currentPhoto : Photo) :
    Option Photo :=
  match pickPhotoWithLookback byDate threshold (ks 0) currentDate with
  | none => none
  | some pick =>
    some (rerollAux byDate threshold ks currentDate currentPhoto.path 6 1 pick).photo

/-- Instrumented variant of the retry loop returning how many pick
invocations it makes. -/
def rerollAuxCount (byDate : Int → List Photo) (threshold : ℚ) (ks : Nat → Nat)
    (currentDate : Int) (currentPath : String) :
    Nat → Nat → PickResult → PickResult × Nat
  | 0, _, chosen => (chosen, 0)
  | fuel + 1, attempt, chosen =>
    if chosen.photo.path = currentPath then
      match pickPhotoWithLookback byDate threshold (ks attempt) currentDate with
      | none => (chosen, 1)
      | some again =>
        let t := rerollAuxCount byDate threshold ks currentDate currentPath fuel
          (attempt + 1) again
        (t.1, t.2 + 1)
    else (chosen, 0)

/-- Total number of `pickPhotoWithLookback` invocations one
`onRerollSameDay` call makes (the initial pick plus the retries). -/
def rerollAttempts (byDate : Int → List Photo) (threshold : ℚ) (ks : Nat → Nat)
    (currentDate : Int) (currentPhoto : Photo) : Nat :=
  match pickPhotoWithLookback byDate threshold (ks 0) currentDate with
  | none => 1
  | some pick =>
    1 + (rerollAuxCount byDate threshold ks currentDate currentPhoto.path 6 1 pick).2

/-! ### Auxiliary definitions for the statements and witnesses -/

/-- An error buffer that is zero at every column. -/
def AllZero (e : Nat → Err3) : Prop := ∀ j, e j = zero3

/-- Concrete catalog: one record thirty days before day 0 and nothing
else. -/
def thirtyBackCatalog : Int → List Photo :=
  fun d => if d = -30 then [⟨"a", some 80⟩] else []

/-- Concrete catalog: one record twenty-nine days before day 0 and nothing
else. -/
def edgeCatalog : Int → List Photo :=
  fun d => if d = -29 then [⟨"a", some 80⟩] else []

/-- Concrete catalog: on day 5 one record below and one above the
threshold 70. -/
def twoScoreCatalog : Int → List Photo :=
  fun d => if d = 5 then [⟨"lo", some 10⟩, ⟨"hi", some 80⟩] else []

/-- Concrete catalog: on day 0 a single record scoring below the
threshold 70. -/
def lowScoreCatalog : Int → List Photo :=
  fun d => if d = 0 then [⟨"a", some 10⟩] else []

/-- Concrete catalog: on day 0 a single unscored record. -/
def collideCatalog : Int → List Photo :=
  fun d => if d = 0 then [⟨"a", none⟩] else []

/-- Concrete catalog: on day 0 a single unscored record named "b". -/
def oneCatalog : Int → List Photo :=
  fun d => if d = 0 then [⟨"b", none⟩] else []

/-! ### Lemmas about the quantizer -/

lemma nearestAux_mem (r g b : ℚ) :
    ∀ (l : List PalColor) (best : PalColor) (d : ℚ),
      nearestAux r g b l best d = best ∨ nearestAux r g b l best d ∈ l
  | [], _, _ => Or.inl rfl
  | c :: rest, best, d => by
    simp only [nearestAux]
    split
    · rcases nearestAux_mem r g b rest c (distSq r g b c) with h | h
      · rw [h]; exact Or.inr (List.mem_cons_self c rest)
      · exact Or.inr (List.mem_cons_of_mem c h)
    · rcases nearestAux_mem r g b rest best d with h | h
      · exact Or.inl h
      · exact Or.inr (List.mem_cons_of_mem c h)

lemma nearestColor_mem (r g b : ℚ) : nearestColor r g b ∈ palette := by
  have h := nearestAux_mem r g b
    [⟨255, 255, 255⟩, ⟨200, 0, 0⟩, ⟨220, 180, 0⟩] ⟨0, 0, 0⟩
    (distSq r g b ⟨0, 0, 0⟩)
  rcases h with h | h
  · rw [show nearestColor r g b =
      nearestAux r g b [⟨255, 255, 255⟩, ⟨200, 0, 0⟩, ⟨220, 180, 0⟩] ⟨0, 0, 0⟩
        (distSq r g b ⟨0, 0, 0⟩) from rfl, h]
    simp [palette]
  · rw [show nearestColor r g b =
      nearestAux r g b [⟨255, 255, 255⟩, ⟨200, 0, 0⟩, ⟨220, 180, 0⟩] ⟨0, 0, 0⟩
        (distSq r g b ⟨0, 0, 0⟩) from rfl]
    simp only [palette]
    exact List.mem_cons_of_mem _ h

lemma stepPixel_fst_palette (w : Nat) (lastRow : Bool) (x : Nat) (p : Pix)
    (err nextErr : Nat → Err3) :
    rgbOf (stepPixel w lastRow x p err nextErr).1 ∈ palette := by
  simp only [stepPixel, rgbOf]
  exact nearestColor_mem _ _ _

lemma stepPixel_fst_alpha (w : Nat) (lastRow : Bool) (x : Nat) (p : Pix)
    (err nextErr : Nat → Err3) :
    (stepPixel w lastRow x p err nextErr).1.a = p.a := rfl

lemma ditherRow_palette (w : Nat) (lastRow : Bool) :
    ∀ (row : List Pix) (x : Nat) (err nextErr : Nat → Err3),
      ∀ q ∈ (ditherRow w lastRow x row err nextErr).1, rgbOf q ∈ palette
  | [], _, _, _ => by intro q hq; simp [ditherRow] at hq
  | p :: rest, x, err, nextErr => by
    intro q hq
    simp only [ditherRow, List.mem_cons] at hq
    rcases hq with rfl | hq
    · exact stepPixel_fst_palette w lastRow x p err nextErr
    · exact ditherRow_palette w lastRow rest (x + 1) _ _ q hq

lemma ditherRows_palette (w : Nat) :
    ∀ (rows : List (List Pix)) (err : Nat → Err3),
      ∀ row ∈ ditherRows w rows err, ∀ q ∈ row, rgbOf q ∈ palette
  | [], _ => by intro row hrow; simp [ditherRows] at hrow
  | row :: rest, err => by
    intro row' hrow' q hq
    simp only [ditherRows, List.mem_cons] at hrow'
    rcases hrow' with rfl | hrow'
    · exact ditherRow_palette w rest.isEmpty row 0 err zeroErrBuf q hq
    · exact ditherRows_palette w rest _ row' hrow' q hq

lemma allZero_zeroErrBuf : AllZero zeroErrBuf := fun _ => rfl

lemma addErr_allZero (e : Nat → Err3) (i : Nat) (v : Err3)
    (he : AllZero e) (hv : v = zero3) : AllZero (addErr e i v) := by
  intro j
  simp only [addErr, he j, hv, zero3]
  split <;> simp

lemma palette_fix : ∀ c ∈ palette,
    clamp255 ((c.r : ℚ)) = (c.r : ℚ) ∧ clamp255 ((c.g : ℚ)) = (c.g : ℚ) ∧
      clamp255 ((c.b : ℚ)) = (c.b : ℚ) ∧
      nearestColor (c.r : ℚ) (c.g : ℚ) (c.b : ℚ) = c := by
  intro c hc
  simp only [palette, List.mem_cons, List.not_mem_nil, or_false] at hc
  rcases hc with rfl | rfl | rfl | rfl <;>
    norm_num [clamp255, nearestColor, palette, nearestAux, distSq]

lemma stepPixel_fix (w : Nat) (lastRow : Bool) (x : Nat) (p : Pix)
    (err nextErr : Nat → Err3)
    (hp : rgbOf p ∈ palette) (he : AllZero err) (hn : AllZero nextErr) :
    (stepPixel w lastRow x p err nextErr).1 = p ∧
      AllZero (stepPixel w lastRow x p err nextErr).2.1 ∧
      AllZero (stepPixel w lastRow x p err nextErr).2.2 := by
  obtain ⟨h1, h2, h3, h4⟩ := palette_fix (rgbOf p) hp
  simp only [rgbOf] at h1 h2 h3 h4
  have hze : (err x).er = 0 := by rw [he x]; rfl
  have hzg : (err x).eg = 0 := by rw [he x]; rfl
  have hzb : (err x).eb = 0 := by rw [he x]; rfl
  simp only [stepPixel, hze, hzg, hzb, add_zero, h1, h2, h3, h4, sub_self, zero_mul]
  refine ⟨by trivial, ?_, ?_⟩
  · split
    · exact addErr_allZero _ _ _ he rfl
    · exact he
  · split
    · exact hn
    · split
      · split
        · exact addErr_allZero _ _ _
            (addErr_allZero _ _ _ (addErr_allZero _ _ _ hn rfl) rfl) rfl
        · exact addErr_allZero _ _ _ (addErr_allZero _ _ _ hn rfl) rfl
      · split
        · exact addErr_allZero _ _ _ (addErr_allZero _ _ _ hn rfl) rfl
        · exact addErr_allZero _ _ _ hn rfl

lemma ditherRow_fix (w : Nat) (lastRow : Bool) :
    ∀ (row : List Pix) (x : Nat) (err nextErr : Nat → Err3),
      (∀ q ∈ row, rgbOf q ∈ palette) → AllZero err → AllZero nextErr →
      (ditherRow w lastRow x row err nextErr).1 = row ∧
        AllZero (ditherRow w lastRow x row err nextErr).2.1 ∧
        AllZero (ditherRow w lastRow x row err nextErr).2.2
  | [], _, _, _ => fun _ he hn => ⟨rfl, he, hn⟩
  | p :: rest, x, err, nextErr => by
    intro hrow he hn
    obtain ⟨hs1, hs2, hs3⟩ :=
      stepPixel_fix w lastRow x p err nextErr (hrow p (by simp)) he hn
    obtain ⟨ih1, ih2, ih3⟩ := ditherRow_fix w lastRow rest (x + 1) _ _
      (fun q hq => hrow q (by simp [hq])) hs2 hs3
    simp only [ditherRow]
    exact ⟨by rw [hs1, ih1], ih2, ih3⟩

lemma ditherRows_fix (w : Nat) :
    ∀ (rows : List (List Pix)) (err : Nat → Err3),
      (∀ row ∈ rows, ∀ q ∈ row, rgbOf q ∈ palette) → AllZero err →
      ditherRows w rows err = rows
  | [], _ => fun _ _ => rfl
  | row :: rest, err => by
    intro hrows he
    obtain ⟨h1, _, h3⟩ := ditherRow_fix w rest.isEmpty row 0 err zeroErrBuf
      (hrows row (by simp)) he allZero_zeroErrBuf
    simp only [ditherRows]
    rw [h1, ditherRows_fix w rest _ (fun r hr => hrows r (by simp [hr])) h3]

lemma ditherRow_alpha (w : Nat) (lastRow : Bool) :
    ∀ (row : List Pix) (x : Nat) (err nextErr : Nat → Err3),
      List.Forall₂ (fun p q => q.a = p.a) row
        (ditherRow w lastRow x row err nextErr).1
  | [], _, _, _ => List.Forall₂.nil
  | p :: rest, x, err, nextErr => by
    simp only [ditherRow]
    exact List.Forall₂.cons rfl (ditherRow_alpha w lastRow rest (x + 1) _ _)

lemma ditherRows_alpha (w : Nat) :
    ∀ (rows : List (List Pix)) (err : Nat → Err3),
      List.Forall₂ (fun row row' => List.Forall₂ (fun p q => q.a = p.a) row row')
        rows (ditherRows w rows err)
  | [], _ => List.Forall₂.nil
  | row :: rest, err => by
    simp only [ditherRows]
    exact List.Forall₂.cons (ditherRow_alpha w rest.isEmpty row 0 _ _)
      (ditherRows_alpha w rest _)

/-! ### Lemmas about the date selector -/

lemma getD_mod_mem (l : List Photo) (k : Nat) (hl : l ≠ []) :
    l.getD (k % l.length) dPhoto ∈ l := by
  have hlen : 0 < l.length := List.length_pos.mpr hl
  have h : k % l.length < l.length := Nat.mod_lt _ hlen
  rw [List.getD_eq_getElem l dPhoto h]
  exact List.getElem_mem h

lemma memGt_iff (p : Photo) (threshold : ℚ) :
    memGt p threshold = true ↔ ∃ m, p.memory = some m ∧ threshold < m := by
  cases hm : p.memory <;> simp [memGt, hm]

lemma pickPhotoFromDate_none (byDate : Int → List Photo) (threshold : ℚ)
    (k : Nat) (d : Int) (h : byDate d = []) :
    pickPhotoFromDate byDate threshold k d = none := by
  simp [pickPhotoFromDate, h]

lemma pickPhotoFromDate_some (byDate : Int → List Photo) (threshold : ℚ)
    (k : Nat) (d : Int) (h : byDate d ≠ []) :
    ∃ res, pickPhotoFromDate byDate threshold k d = some res := by
  simp only [pickPhotoFromDate]
  rw [if_neg (by simpa [List.length_eq_zero] using h)]
  split <;> exact ⟨_, rfl⟩

lemma pickPhotoFromDate_cases (byDate : Int → List Photo) (threshold : ℚ)
    (k : Nat) (d : Int) (res : PickResult)
    (h : pickPhotoFromDate byDate threshold k d = some res) :
    res.dateUsed = d ∧ res.photo ∈ byDate d ∧
      (((byDate d).filter (fun p => memGt p threshold) ≠ [] ∧
          res.photo ∈ (byDate d).filter (fun p => memGt p threshold) ∧
          res.fallbackNoThreshold = false) ∨
        ((byDate d).filter (fun p => memGt p threshold) = [] ∧
          res.fallbackNoThreshold = true)) := by
  simp only [pickPhotoFromDate] at h
  by_cases h0 : (byDate d).length = 0
  · rw [if_pos h0] at h; cases h
  · rw [if_neg h0] at h
    have harr : byDate d ≠ [] := by simpa [List.length_eq_zero] using h0
    by_cases hc : 0 < ((byDate d).filter (fun p => memGt p threshold)).length
    · rw [if_pos hc] at h
      obtain rfl := Option.some.inj h
      have hfne : (byDate d).filter (fun p => memGt p threshold) ≠ [] :=
        List.length_pos.mp hc
      have hmem := getD_mod_mem ((byDate d).filter (fun p => memGt p threshold)) k hfne
      exact ⟨rfl, List.mem_of_mem_filter hmem, Or.inl ⟨hfne, hmem, rfl⟩⟩
    · rw [if_neg hc] at h
      obtain rfl := Option.some.inj h
      have hfnil : (byDate d).filter (fun p => memGt p threshold) = [] := by
        simpa [List.length_eq_zero] using Nat.le_zero.mp (Nat.not_lt.mp hc)
      exact ⟨rfl, getD_mod_mem (byDate d) k harr, Or.inr ⟨hfnil, rfl⟩⟩

lemma pickPhotoFromDate_none_iff (byDate : Int → List Photo) (threshold : ℚ)
    (k : Nat) (d : Int) :
    pickPhotoFromDate byDate threshold k d = none ↔ byDate d = [] := by
  constructor
  · intro h
    by_contra hne
    obtain ⟨res, hres⟩ := pickPhotoFromDate_some byDate threshold k d hne
    rw [hres] at h; cases h
  · exact pickPhotoFromDate_none byDate threshold k d

lemma pickPhotoFromDate_threshold (byDate : Int → List Photo) (threshold : ℚ)
    (k : Nat) (d : Int) (res : PickResult)
    (h : pickPhotoFromDate byDate threshold k d = some res)
    (hex : ∃ p ∈ byDate d, memGt p threshold = true) :
    memGt res.photo threshold = true := by
  obtain ⟨-, -, hcase⟩ := pickPhotoFromDate_cases byDate threshold k d res h
  rcases hcase with ⟨-, hmem, -⟩ | ⟨hnil, -⟩
  · exact (List.mem_filter.mp hmem).2
  · obtain ⟨p, hp, hgt⟩ := hex
    have hno := List.filter_eq_nil_iff.mp hnil p hp
    simp [hgt] at hno

lemma lookbackFrom_some_pick (byDate : Int → List Photo) (threshold : ℚ) (k : Nat) :
    ∀ (n : Nat) (d : Int) (res : PickResult),
      lookbackFrom byDate threshold k n d = some res →
      pickPhotoFromDate byDate threshold k res.dateUsed = some res
  | 0, _, _ => by intro h; cases h
  | n + 1, d, res => by
    intro h
    simp only [lookbackFrom, getPreviousDate] at h
    cases hp : pickPhotoFromDate byDate threshold k d with
    | some r =>
      rw [hp] at h
      obtain rfl := Option.some.inj h
      have hd := (pickPhotoFromDate_cases byDate threshold k d r hp).1
      rwa [hd]
    | none =>
      rw [hp] at h
      exact lookbackFrom_some_pick byDate threshold k n (d - 1) res h

lemma lookbackFrom_none_iff (byDate : Int → List Photo) (threshold : ℚ) (k : Nat) :
    ∀ (n : Nat) (d : Int),
      lookbackFrom byDate threshold k n d = none ↔
        ∀ i : Nat, i < n → byDate (d - i) = []
  | 0, d => by simp [lookbackFrom]
  | n + 1, d => by
    simp only [lookbackFrom, getPreviousDate]
    cases hp : pickPhotoFromDate byDate threshold k d with
    | some r =>
      have hne : byDate d ≠ [] := by
        intro hnil
        rw [pickPhotoFromDate_none byDate threshold k d hnil] at hp
        cases hp
      simp only []
      constructor
      · intro h; cases h
      · intro h
        exact absurd (by simpa using h 0 (Nat.succ_pos n)) hne
    | none =>
      have hd : byDate d = [] :=
        (pickPhotoFromDate_none_iff byDate threshold k d).mp hp
      rw [lookbackFrom_none_iff byDate threshold k n (d - 1)]
      constructor
      · intro h i hi
        cases i with
        | zero => simpa using hd
        | succ j =>
          have hj := h j (Nat.lt_of_succ_lt_succ hi)
          rw [show d - ((j + 1 : Nat) : Int) = d - 1 - (j : Int) by push_cast; ring]
          exact hj
      · intro h i hi
        have hj := h (i + 1) (Nat.succ_lt_succ hi)
        rw [show d - 1 - (i : Int) = d - ((i + 1 : Nat) : Int) by push_cast; ring]
        exact hj

lemma lookbackFrom_range (byDate : Int → List Photo) (threshold : ℚ) (k : Nat) :
    ∀ (n : Nat) (d : Int) (res : PickResult),
      lookbackFrom byDate threshold k n d = some res →
      res.dateUsed ≤ d ∧ d - res.dateUsed < (n : Int)
  | 0, _, _ => by intro h; cases h
  | n + 1, d, res => by
    intro h
    simp only [lookbackFrom, getPreviousDate] at h
    cases hp : pickPhotoFromDate byDate threshold k d with
    | some r =>
      rw [hp] at h
      obtain rfl := Option.some.inj h
      have hd := (pickPhotoFromDate_cases byDate threshold k d r hp).1
      rw [hd]
      constructor
      · exact le_refl d
      · push_cast; omega
    | none =>
      rw [hp] at h
      obtain ⟨h1, h2⟩ := lookbackFrom_range byDate threshold k n (d - 1) res h
      constructor
      · omega
      · push_cast at h2 ⊢; omega

lemma rerollAuxCount_le (byDate : Int → List Photo) (threshold : ℚ) (ks : Nat → Nat)
    (currentDate : Int) (currentPath : String) :
    ∀ (fuel attempt : Nat) (chosen : PickResult),
      (rerollAuxCount byDate threshold ks currentDate currentPath fuel attempt
        chosen).2 ≤ fuel
  | 0, _, _ => Nat.le_refl 0
  | fuel + 1, attempt, chosen => by
    simp only [rerollAuxCount]
    split
    · split
      · exact Nat.succ_le_succ (Nat.zero_le fuel)
      · exact Nat.succ_le_succ
          (rerollAuxCount_le byDate threshold ks currentDate currentPath fuel
            (attempt + 1) _)
    · exact Nat.zero_le _

/-! ### Claim theorems: the quantizer -/

/-- C1 counterexample: dithering the 2×2 uniform gray (128,128,128) bitmap
does not produce only black and white pixels — gray is strictly nearest to
yellow (220,180,0) in this palette (squared distance 27552 versus 48387 to
white and 49152 to black), so the top-left output pixel is yellow. -/
theorem gray2x2_dither_contains_yellow :
    ¬ (∀ row ∈ applyFourColorDither 2
          [[⟨128, 128, 128, 255⟩, ⟨128, 128, 128, 255⟩],
            [⟨128, 128, 128, 255⟩, ⟨128, 128, 128, 255⟩]],
        ∀ p ∈ row, rgbOf p = ⟨0, 0, 0⟩ ∨ rgbOf p = ⟨255, 255, 255⟩) := by
  have hx : applyFourColorDither 2
      [[⟨128, 128, 128, 255⟩, ⟨128, 128, 128, 255⟩],
        [⟨128, 128, 128, 255⟩, ⟨128, 128, 128, 255⟩]] =
      [[⟨220, 180, 0, 255⟩, ⟨0, 0, 0, 255⟩],
        [⟨255, 255, 255, 255⟩, ⟨0, 0, 0, 255⟩]] := by
    norm_num [applyFourColorDither, ditherRows, ditherRow, stepPixel, nearestColor,
      palette, nearestAux, distSq, clamp255, addErr, zeroErrBuf, zero3]
  intro hall
  rw [hx] at hall
  have h := hall [⟨220, 180, 0, 255⟩, ⟨0, 0, 0, 255⟩] (by simp)
    ⟨220, 180, 0, 255⟩ (by simp)
  simp [rgbOf] at h

/-- C1 (amended): dithering the 2×2 uniform gray (128,128,128) bitmap
against the reference palette produces the fixed, reproducible pattern
yellow/black on the top row and white/black on the bottom row (gray is
strictly nearest to yellow, not equidistant between black and white). -/
theorem gray2x2_dither_fixture :
    applyFourColorDither 2
        [[⟨128, 128, 128, 255⟩, ⟨128, 128, 128, 255⟩],
          [⟨128, 128, 128, 255⟩, ⟨128, 128, 128, 255⟩]] =
      [[⟨220, 180, 0, 255⟩, ⟨0, 0, 0, 255⟩],
        [⟨255, 255, 255, 255⟩, ⟨0, 0, 0, 255⟩]] := by
  norm_num [applyFourColorDither, ditherRows, ditherRow, stepPixel, nearestColor,
    palette, nearestAux, distSq, clamp255, addErr, zeroErrBuf, zero3]

/-- C7: for every input bitmap of width ≥ 1 and height ≥ 1, every pixel of
the dithered output has its RGB channels equal to one of the palette
entries. -/
theorem dither_output_in_palette (w : Nat) (rows : List (List Pix))
    (_hw : 1 ≤ w) (_hh : 1 ≤ rows.length) :
    ∀ row ∈ applyFourColorDither w rows, ∀ p ∈ row, rgbOf p ∈ palette :=
  fun row hrow p hp => ditherRows_palette w rows zeroErrBuf row hrow p hp

/-- Witness for C7 at a concrete 1×1 bitmap. -/
theorem dither_output_in_palette_witness :
    1 ≤ 1 ∧ 1 ≤ ([[⟨10, 20, 30, 40⟩]] : List (List Pix)).length ∧
      ∀ row ∈ applyFourColorDither 1 [[⟨10, 20, 30, 40⟩]],
        ∀ p ∈ row, rgbOf p ∈ palette :=
  ⟨by decide, by decide,
    dither_output_in_palette 1 [[⟨10, 20, 30, 40⟩]] (by decide) (by decide)⟩

/-- C8: `dither` leaves a bitmap whose pixels are all exact palette colors
unchanged, and consequently `dither (dither b) = dither b` for every
bitmap `b`. -/
theorem dither_idempotent (w : Nat) (rows : List (List Pix)) :
    ((∀ row ∈ rows, ∀ p ∈ row, rgbOf p ∈ palette) →
      applyFourColorDither w rows = rows) ∧
    applyFourColorDither w (applyFourColorDither w rows) =
      applyFourColorDither w rows :=
  ⟨fun h => ditherRows_fix w rows zeroErrBuf h allZero_zeroErrBuf,
    ditherRows_fix w (ditherRows w rows zeroErrBuf) zeroErrBuf
      (ditherRows_palette w rows zeroErrBuf) allZero_zeroErrBuf⟩

/-- Witness for C8 at a concrete black/white 2×1 bitmap. -/
theorem dither_idempotent_witness :
    applyFourColorDither 2 [[⟨0, 0, 0, 7⟩, ⟨255, 255, 255, 9⟩]] =
      [[⟨0, 0, 0, 7⟩, ⟨255, 255, 255, 9⟩]] :=
  (dither_idempotent 2 [[⟨0, 0, 0, 7⟩, ⟨255, 255, 255, 9⟩]]).1 (by decide)

/-- C9: `dither` is deterministic — on identical input pixel data it
produces identical output; the result is a function of the input pixels
and the fixed palette only, with no randomness. -/
theorem dither_deterministic (w : Nat) (b1 b2 : List (List Pix)) (h : b1 = b2) :
    applyFourColorDither w b1 = applyFourColorDither w b2 := by rw [h]

/-- Witness for C9 at a concrete 1×1 bitmap. -/
theorem dither_deterministic_witness :
    applyFourColorDither 1 [[⟨1, 2, 3, 4⟩]] =
      applyFourColorDither 1 [[⟨1, 2, 3, 4⟩]] :=
  dither_deterministic 1 [[⟨1, 2, 3, 4⟩]] [[⟨1, 2, 3, 4⟩]] rfl

/-- C10: `dither` preserves the bitmap dimensions (same number of rows,
each output row as long as its input row) and passes the alpha channel of
every pixel through unchanged. -/
theorem dither_frame (w : Nat) (rows : List (List Pix)) :
    (applyFourColorDither w rows).length = rows.length ∧
    List.Forall₂ (fun row row' => row.length = row'.length ∧
        List.Forall₂ (fun p q => q.a = p.a) row row')
      rows (applyFourColorDither w rows) := by
  have h := ditherRows_alpha w rows zeroErrBuf
  exact ⟨h.length_eq.symm, h.imp (fun a b hr => ⟨hr.length_eq, hr⟩)⟩

/-! ### Claim theorems: the date selector -/

/-- C2 counterexample: the lookback loop runs `MAX_LOOKBACK = 30`
iterations over the offsets 0..29, so a record dated exactly 30 days
before the target — inside the claimed window `[target - 30, target]` —
is never reached: with a single record exactly 30 days back the pick
returns null. -/
theorem lookback_misses_day_thirty :
    thirtyBackCatalog (0 - 30) ≠ [] ∧ (0 : Int) - 30 ≤ -30 ∧
      pickPhotoWithLookback thirtyBackCatalog 70 0 0 = none := by
  refine ⟨by decide, by decide, ?_⟩
  decide

/-- C2 (amended): for every target date and every catalog with at least
one record dated within `[target - (maxLookbackDays - 1), target]` — that
is, at an offset `i < maxLookbackDays` — the lookback pick returns a
record rather than null; in particular a record dated exactly
`maxLookbackDays - 1` (reference: 29) days before the target is still
found when all later dates in the window are empty. -/
theorem lookback_finds_within_window (byDate : Int → List Photo)
    (threshold : ℚ) (k n : Nat) (d : Int)
    (h : ∃ i : Nat, i < n ∧ byDate (d - i) ≠ []) :
    ∃ res, lookbackFrom byDate threshold k n d = some res := by
  cases heq : lookbackFrom byDate threshold k n d with
  | some res => exact ⟨res, rfl⟩
  | none =>
    obtain ⟨i, hi, hne⟩ := h
    exact absurd ((lookbackFrom_none_iff byDate threshold k n d).mp heq i hi) hne

/-- Witness for C2 (amended): a record exactly 29 days back is found. -/
theorem lookback_finds_within_window_witness :
    ∃ res, lookbackFrom edgeCatalog 70 0 30 0 = some res :=
  lookback_finds_within_window edgeCatalog 70 0 30 0 ⟨29, by decide, by decide⟩

/-- C4: whenever the lookback pick (any target date, catalog, threshold
and iteration bound) returns a result, and the records for the returned
`dateUsed` include at least one with memory score strictly above the
threshold, the returned record's memory score is strictly above the
threshold. -/
theorem pick_respects_threshold (byDate : Int → List Photo) (threshold : ℚ)
    (k n : Nat) (d : Int) (res : PickResult)
    (hres : lookbackFrom byDate threshold k n d = some res)
    (hex : ∃ p ∈ byDate res.dateUsed, ∃ m, p.memory = some m ∧ threshold < m) :
    ∃ m, res.photo.memory = some m ∧ threshold < m := by
  have hpick := lookbackFrom_some_pick byDate threshold k n d res hres
  have hex2 : ∃ p ∈ byDate res.dateUsed, memGt p threshold = true := by
    obtain ⟨p, hp, m, hm, hlt⟩ := hex
    exact ⟨p, hp, (memGt_iff p threshold).mpr ⟨m, hm, hlt⟩⟩
  exact (memGt_iff res.photo threshold).mp
    (pickPhotoFromDate_threshold byDate threshold k res.dateUsed res hpick hex2)

/-- Witness for C4: with one record above and one below the threshold the
pick returns the qualifying one. -/
theorem pick_respects_threshold_witness :
    ∃ m, ((⟨⟨"hi", some 80⟩, 5, false⟩ : PickResult)).photo.memory = some m ∧
      (70 : ℚ) < m :=
  pick_respects_threshold twoScoreCatalog 70 0 30 5
    ⟨⟨"hi", some 80⟩, 5, false⟩ (by decide)
    ⟨⟨"hi", some 80⟩, by decide, 80, rfl, by decide⟩

/-- C5: the lookback walk continues to the previous day exactly when the
current date has no records at all; when the date has records the walk
stops there — the whole lookback equals the single-date pick — and if
none of the records beats the threshold the pick still returns a record
of that date, flagged as a threshold fallback, never moving to an earlier
date. -/
theorem lookback_stops_at_first_nonempty (byDate : Int → List Photo)
    (threshold : ℚ) (k n : Nat) (d : Int) :
    (byDate d = [] →
      lookbackFrom byDate threshold k (n + 1) d =
        lookbackFrom byDate threshold k n (d - 1)) ∧
    (byDate d ≠ [] →
      lookbackFrom byDate threshold k (n + 1) d =
        pickPhotoFromDate byDate threshold k d ∧
      ((∀ p ∈ byDate d, memGt p threshold = false) →
        ∃ res, pickPhotoFromDate byDate threshold k d = some res ∧
          res.fallbackNoThreshold = true ∧ res.photo ∈ byDate d ∧
          res.dateUsed = d)) := by
  constructor
  · intro hnil
    simp only [lookbackFrom, getPreviousDate,
      pickPhotoFromDate_none byDate threshold k d hnil]
  · intro hne
    obtain ⟨res, hres⟩ := pickPhotoFromDate_some byDate threshold k d hne
    constructor
    · simp only [lookbackFrom, getPreviousDate, hres]
    · intro hall
      obtain ⟨hdate, hmem, hcase⟩ :=
        pickPhotoFromDate_cases byDate threshold k d res hres
      rcases hcase with ⟨hfne, -, -⟩ | ⟨-, hflag⟩
      · exact absurd
          (List.filter_eq_nil_iff.mpr (fun a ha => by simp [hall a ha])) hfne
      · exact ⟨res, hres, hflag, hmem, hdate⟩

/-- Witness for C5: with day 0 holding one sub-threshold record, day 1
walks back to day 0, and day 0 yields a fallback-flagged pick from its
own records. -/
theorem lookback_stops_at_first_nonempty_witness :
    lookbackFrom lowScoreCatalog 70 0 30 1 = lookbackFrom lowScoreCatalog 70 0 29 0 ∧
    (lookbackFrom lowScoreCatalog 70 0 30 0 = pickPhotoFromDate lowScoreCatalog 70 0 0 ∧
      ∃ res, pickPhotoFromDate lowScoreCatalog 70 0 0 = some res ∧
        res.fallbackNoThreshold = true ∧ res.photo ∈ lowScoreCatalog 0 ∧
        res.dateUsed = 0) := by
  have h1 := (lookback_stops_at_first_nonempty lowScoreCatalog 70 0 29 1).1 (by decide)
  have h2 := (lookback_stops_at_first_nonempty lowScoreCatalog 70 0 29 0).2 (by decide)
  exact ⟨h1, h2.1, h2.2 (by decide)⟩

/-- C6: whenever the lookback pick returns a result, the reported
`dateUsed` is at most the target date and at most `MAX_LOOKBACK = 30`
days earlier (the loop in fact never goes more than 29 days back). -/
theorem pick_dateUsed_in_window (byDate : Int → List Photo) (threshold : ℚ)
    (k : Nat) (d : Int) (res : PickResult)
    (h : pickPhotoWithLookback byDate threshold k d = some res) :
    res.dateUsed ≤ d ∧ d - res.dateUsed ≤ 30 := by
  obtain ⟨h1, h2⟩ := lookbackFrom_range byDate threshold k 30 d res h
  refine ⟨h1, ?_⟩
  push_cast at h2
  omega

/-- Witness for C6 at a concrete one-record catalog. -/
theorem pick_dateUsed_in_window_witness :
    ((⟨⟨"b", none⟩, 0, true⟩ : PickResult)).dateUsed ≤ (0 : Int) ∧
      (0 : Int) - ((⟨⟨"b", none⟩, 0, true⟩ : PickResult)).dateUsed ≤ 30 :=
  pick_dateUsed_in_window oneCatalog 70 0 0 ⟨⟨"b", none⟩, 0, true⟩ (by decide)

/-- C3 counterexample: when every re-pick collides with the current
photo, `onRerollSameDay` makes 7 pick invocations (the initial one plus
6 retries, `while (tries < 6)`), not the claimed maximum of 6. -/
theorem reroll_makes_seven_attempts :
    6 < rerollAttempts collideCatalog 70 (fun _ => 0) 0 ⟨"a", none⟩ := by
  decide

/-- C3 (amended): the reroll re-invokes the lookback pick on the current
date with identical parameters; on collision it retries at most 6 more
times, so at most 7 pick invocations are made in total, and even if all
attempts collide it returns the final pick of the retry chain. -/
theorem reroll_bounded_attempts (byDate : Int → List Photo) (threshold : ℚ)
    (ks : Nat → Nat) (currentDate : Int) (currentPhoto : Photo) :
    rerollAttempts byDate threshold ks currentDate currentPhoto ≤ 7 ∧
    (∀ res, pickPhotoWithLookback byDate threshold (ks 0) currentDate = some res →
      onRerollSameDay byDate threshold ks currentDate currentPhoto =
        some (rerollAux byDate threshold ks currentDate currentPhoto.path 6 1
          res).photo) := by
  constructor
  · simp only [rerollAttempts]
    split
    · omega
    · rename_i pick heq
      have hb := rerollAuxCount_le byDate threshold ks currentDate
        currentPhoto.path 6 1 pick
      omega
  · intro res hres
    simp only [onRerollSameDay, hres]

/-- Witness for C3 (amended) on a catalog where every attempt collides. -/
theorem reroll_bounded_attempts_witness :
    rerollAttempts collideCatalog 70 (fun _ => 0) 0 ⟨"a", none⟩ ≤ 7 ∧
      onRerollSameDay collideCatalog 70 (fun _ => 0) 0 ⟨"a", none⟩ =
        some ⟨"a", none⟩ := by
  have h := reroll_bounded_attempts collideCatalog 70 (fun _ => 0) 0 ⟨"a", none⟩
  refine ⟨h.1, ?_⟩
  rw [h.2 ⟨⟨"a", none⟩, 0, true⟩ (by decide)]
  decide
